import Mathlib

/-!
# khai-compare: the analysis input parser

A shallow embedding of `Source/analysis_input_parser.c` (with the record of
`Headers/analysis_input_parser.h`) and the properties of its configuration loader.

Modelling conventions.

* Text is `String`.  A `char *` read by the C library (`strdup`, `strlen`, the `%s`
  conversion, `BSON_APPEND_UTF8`) ends at the first NUL character; `cstr` is that reading.
  The text of a BSON UTF-8 element may hold NUL characters (a JSON `\u0000` escape), and
  `bson_iter_utf8 (&iter, NULL)` hands out a pointer to it without its length.
* The heap is a list of cells, a pointer is `none` (NULL) or the index of a cell, an
  allocation adds a cell at the end and always succeeds, `free` empties the cell and
  leaves the pointer value as it is.
* libbson and the file system are not part of the repository: the JSON reader and writer and
  the files are the fields of `World`.  A `bson_t` is the ordered list of its elements, and the
  field of a document under a key is the first element with that key, the one
  `bson_iter_init_find` stops at.
* What the program prints, opens and writes is recorded as a list of `Event`s.
-/

namespace KhaiCompare

/-! ## C strings and the heap -/

/-- The NUL character that ends a C string. -/
def NUL : Char := Char.ofNat 0

/-- The C string found at a pointer to the characters `s`: everything before the first NUL. -/
def cstr (s : String) : String := ⟨s.data.takeWhile (fun c => c != NUL)⟩

/-- The `strlen` of the C string found at a pointer to the characters `s`. -/
def strlen (s : String) : Nat := (cstr s).data.length

/-- A pointer to a heap string: `none` is NULL, `some a` is the address `a`. -/
abbrev Ptr := Option Nat

/-- The heap: cell `a` holds `some s` while the block at address `a` is allocated with the
C string `s` in it, and `none` once it has been freed. -/
abbrev Heap := List (Option String)

/-- The C string a pointer points to, if the pointer is neither NULL nor dangling. -/
def deref (h : Heap) (p : Ptr) : Option String :=
  match p with
  | none => none
  | some a => (h.get? a).join

/-- The C function `strdup`, applied to a pointer to the characters `s`: a fresh block holding
the C string found there. -/
def strdup (h : Heap) (s : String) : Heap × Ptr :=
  (h ++ [some (cstr s)], some h.length)

/-- The C function `free`: a no-op on NULL, otherwise the block is released. -/
def free (h : Heap) (p : Ptr) : Heap :=
  match p with
  | none => h
  | some a => h.set a none

/-! ## BSON documents (libbson) -/

/-- The value of a BSON element, by element type. -/
inductive bson_value where
  | double (bits : Nat)
  | utf8 (s : String)
  | document (elements : List (String × bson_value))
  | array (elements : List (String × bson_value))
  | bool (b : Bool)
  | null
  | int32 (n : Int)
  | int64 (n : Int)
  | other (type_code : Nat)

/-- A BSON document: its elements, key and value, in order. -/
abbrev bson_t := List (String × bson_value)

/-- The libbson call `bson_iter_init_find (&iter, bson, key)`: the iterator stops at the first
element with that key; `none` when the call returns false. -/
def bson_iter_init_find (bson : bson_t) (key : String) : Option bson_value :=
  match bson with
  | [] => none
  | (k, v) :: rest => if k = key then some v else bson_iter_init_find rest key

/-- The pair `BSON_ITER_HOLDS_UTF8 (&iter)` and `bson_iter_utf8 (&iter, NULL)`: the characters of
the element when its type is UTF-8, `none` when the type test fails. -/
def bson_iter_utf8 (v : bson_value) : Option String :=
  match v with
  | .utf8 s => some s
  | _ => none

/-- The test `bson_iter_init_find (&iter, bson, key) && BSON_ITER_HOLDS_UTF8 (&iter)` followed
by `bson_iter_utf8 (&iter, NULL)`: the characters of the first element with that key when it
is a UTF-8 element, `none` when the test fails (no such element, or one of another type). -/
def find_utf8 (bson : bson_t) (key : String) : Option String :=
  (bson_iter_init_find bson key).bind bson_iter_utf8

/-- The macro `BSON_APPEND_UTF8 (b, key, value)`, which is
`bson_append_utf8 (b, key, strlen (key), value, strlen (value))`.  `value` is the C string at
the pointer passed, `none` for a pointer that holds none; libbson appends a null element when
the pointer is NULL. -/
def BSON_APPEND_UTF8 (b : bson_t) (key : String) (value : Option String) : bson_t :=
  match value with
  | some s => b ++ [(key, .utf8 s)]
  | none => b ++ [(key, .null)]

/-! ## The environment -/

/-- What the program does to the outside, in order. -/
inductive Event where
  | open_read (path : String)
  | stderr (text : String)
  | stdout (text : String)
  | open_write (path : String)
  | write (path : String) (text : String)
  deriving DecidableEq

/-- The file system and libbson as the program finds them. -/
structure World where
  /-- The content `fopen (path, "r")` followed by `fread` gives, `none` when `fopen` fails. -/
  fopen_read : String → Option String
  /-- The libbson JSON reader: the document, or the message of the error. -/
  bson_new_from_json : String → Except String bson_t
  /-- The libbson JSON writer. -/
  bson_as_canonical_extended_json : bson_t → String
  /-- Whether `fopen (path, "w")` succeeds. -/
  fopen_write : String → Bool

/-! ## The record and the loader -/

/-- The record of `analysis_input_parser.h`. -/
structure AnalysisInput where
  control_collection : Ptr
  treated_collection : Ptr
  marker_name : Ptr
  has_marker : Int
  deriving DecidableEq

/-- The state a call of `parse_input_file` leaves behind. -/
structure ParseResult where
  ret : Int
  events : List Event
  heap : Heap
  input : AnalysisInput
  deriving DecidableEq

/-- The string `control_collection` points to in the state left, if it points to one. -/
def ParseResult.control (r : ParseResult) : Option String :=
  deref r.heap r.input.control_collection

/-- The string `treated_collection` points to in the state left, if it points to one. -/
def ParseResult.treated (r : ParseResult) : Option String :=
  deref r.heap r.input.treated_collection

/-- The string `marker_name` points to in the state left, if it points to one. -/
def ParseResult.marker (r : ParseResult) : Option String :=
  deref r.heap r.input.marker_name

/-- Lines 58 to 95 of `parse_input_file`: the fields are taken out of the parsed document.
`ev` holds the events so far. -/
def extract_fields (bson : bson_t) (ev : List Event) (h : Heap) (input : AnalysisInput) :
    ParseResult :=
  match find_utf8 bson "controlCollection" with
  | none =>
    { ret := -1
      events := ev ++ [.stderr "Error: Missing or invalid 'controlCollection' field\n"]
      heap := h
      input := input }
  | some control =>
    let (h1, p1) := strdup h control
    let input1 := { input with control_collection := p1 }
    match find_utf8 bson "treatedCollection" with
    | none =>
      { ret := -1
        events := ev ++ [.stderr "Error: Missing or invalid 'treatedCollection' field\n"]
        heap := free h1 input1.control_collection
        input := input1 }
    | some treated =>
      let (h2, p2) := strdup h1 treated
      let input2 := { input1 with treated_collection := p2 }
      match find_utf8 bson "markerName" with
      | some marker =>
        if strlen marker > 0 then
          let (h3, p3) := strdup h2 marker
          { ret := 0, events := ev, heap := h3
            input := { input2 with marker_name := p3, has_marker := 1 } }
        else
          { ret := 0, events := ev, heap := h2
            input := { input2 with marker_name := none, has_marker := 0 } }
      | none =>
        { ret := 0, events := ev, heap := h2
          input := { input2 with marker_name := none, has_marker := 0 } }

/-- The function `parse_input_file (filename, input)`, run in the world `w` on the heap `h`.
The buffer `json_content` and the parsed `bson` are released before every return and are not
kept on the model heap; `malloc` succeeding, the return on line 41 is not taken. -/
def parse_input_file (w : World) (filename : String) (h : Heap) (input : AnalysisInput) :
    ParseResult :=
  match w.fopen_read filename with
  | none =>
    { ret := -1
      events := [.open_read filename,
        .stderr ("Error: Cannot open input file '" ++ filename ++ "'\n")]
      heap := h
      input := input }
  | some json_content =>
    match w.bson_new_from_json json_content with
    | .error message =>
      { ret := -1
        events := [.open_read filename,
          .stderr ("Error: Failed to parse JSON: " ++ message ++ "\n")]
        heap := h
        input := input }
    | .ok bson => extract_fields bson [.open_read filename] h input

/-! ## The program -/

/-- The function `free_analysis_input`: each of the three strings is freed unless NULL. -/
def free_analysis_input (h : Heap) (input : AnalysisInput) : Heap :=
  free (free (free h input.control_collection) input.treated_collection) input.marker_name

/-- What the `%s` conversion prints for a pointer. -/
def print_s (h : Heap) (p : Ptr) : String := (deref h p).getD "(null)"

/-- The record `main` starts from, `AnalysisInput input = {0}`. -/
def zeroed : AnalysisInput := ⟨none, none, none, 0⟩

/-- The state in which `main` returns. -/
structure MainResult where
  status : Int
  events : List Event
  /-- The output document, once `main` has built it. -/
  output : Option bson_t
  heap : Heap

/-- The function `main (argc, argv)` with `argc = argv.length`, started on an empty heap.
With `argc = 0` the usage line shows `(null)` for the missing `argv[0]`. -/
def main (w : World) (argv : List String) : MainResult :=
  if argv.length < 2 then
    { status := 1
      events := [.stderr ("Usage: " ++ argv.head?.getD "(null)" ++
        " <input_json_file> [output_json_file]\n")]
      output := none
      heap := [] }
  else
    let input_file := argv.getD 1 ""
    let output_file := if argv.length > 2 then argv.getD 2 "" else "output.json"
    let r := parse_input_file w input_file [] zeroed
    if r.ret ≠ 0 then
      { status := 1, events := r.events, output := none, heap := r.heap }
    else
      let input := r.input
      let ev1 := r.events ++
        [.stdout ("Control Collection: " ++ print_s r.heap input.control_collection ++ "\n"),
         .stdout ("Treated Collection: " ++ print_s r.heap input.treated_collection ++ "\n"),
         if input.has_marker ≠ 0 then
           .stdout ("Marker Name: " ++ print_s r.heap input.marker_name ++ "\n")
         else
           .stdout "Marker Name: (none)\n"]
      let output0 : bson_t := []
      let output1 := BSON_APPEND_UTF8 output0 "status" (some "success")
      let output2 := BSON_APPEND_UTF8 output1 "controlCollection"
        (deref r.heap input.control_collection)
      let output3 := BSON_APPEND_UTF8 output2 "treatedCollection"
        (deref r.heap input.treated_collection)
      let output :=
        if input.has_marker ≠ 0 then
          BSON_APPEND_UTF8 output3 "markerName" (deref r.heap input.marker_name)
        else output3
      let output_string := w.bson_as_canonical_extended_json output
      let ev2 :=
        if w.fopen_write output_file then
          ev1 ++ [.open_write output_file, .write output_file (output_string ++ "\n"),
            .stdout ("\nOutput written to: " ++ output_file ++ "\n")]
        else ev1 ++ [.open_write output_file]
      { status := 0, events := ev2, output := some output
        heap := free_analysis_input r.heap input }

/-! ## Concrete worlds -/

/-- The first entry of a table under a key. -/
def lookup {α : Type} (table : List (String × α)) (key : String) : Option α :=
  match table with
  | [] => none
  | (k, v) :: rest => if k = key then some v else lookup rest key

/-- A world given by two tables: the readable files with their content, and the contents the
JSON reader accepts with the document it makes of each.  Every file can be written. -/
def table_world (files : List (String × String)) (reader : List (String × bson_t)) : World where
  fopen_read := fun path => lookup files path
  bson_new_from_json := fun content =>
    match lookup reader content with
    | some bson => .ok bson
    | none => .error "parse error"
  bson_as_canonical_extended_json := fun _ => ""
  fopen_write := fun _ => true

/-- A world with the one file `in.json`, which the JSON reader turns into `bson`. -/
def one_file_world (bson : bson_t) : World :=
  table_world [("in.json", "content")] [("content", bson)]

/-- The document without its elements under the key `k`. -/
def remove_key (bson : bson_t) (k : String) : bson_t :=
  match bson with
  | [] => []
  | (k1, v) :: rest => if k1 = k then remove_key rest k else (k1, v) :: remove_key rest k

/-- Two calls left equal configurations: the three strings are equal as strings (or absent
together) and the flags are equal. -/
def same_config (r1 r2 : ParseResult) : Prop :=
  r1.control = r2.control ∧ r1.treated = r2.treated ∧ r1.marker = r2.marker ∧
  r1.input.has_marker = r2.input.has_marker

/-- Two calls had the same outcome: the same return code and, when it is 0, equal
configurations. -/
def same_outcome (r1 r2 : ParseResult) : Prop :=
  r2.ret = r1.ret ∧ (r1.ret = 0 → same_config r1 r2)

/-- The call of `parse_input_file` that `main` makes (line 112). -/
def main_load (w : World) (argv : List String) : ParseResult :=
  parse_input_file w (argv.getD 1 "") [] zeroed

/-! ## Sample documents -/

/-- A record left over from earlier use: the marker pointer holds the address 0, which on the
heap `[none]` is a freed block, and the flag is 5. -/
def stale_record : AnalysisInput := ⟨none, none, some 0, 5⟩

/-- The call `parse_input_file ("in.json", &input)` on the zeroed record and the empty heap, in
the world whose one file `in.json` parses to `bson`. -/
def load_sample (bson : bson_t) : ParseResult :=
  parse_input_file (one_file_world bson) "in.json" [] zeroed

/-- The element `key : "text"`. -/
def text_element (key text : String) : String × bson_value := (key, .utf8 text)

/-- The document `{"controlCollection":"ctrlA","treatedCollection":"treatB"}`. -/
def doc_required : bson_t :=
  [text_element "controlCollection" "ctrlA", text_element "treatedCollection" "treatB"]

/-- The document `doc_required` with `"markerName":"CD45"` added. -/
def doc_marker : bson_t := doc_required ++ [text_element "markerName" "CD45"]

/-- The document `doc_required` with `"markerName":""` added. -/
def doc_empty_marker : bson_t := doc_required ++ [text_element "markerName" ""]

/-- The document `doc_required` with `"markerName":7` added. -/
def doc_number_marker : bson_t := doc_required ++ [("markerName", .int32 7)]

/-- The document `{"controlCollection":"ctrlA"}`. -/
def doc_no_treated : bson_t := [text_element "controlCollection" "ctrlA"]

/-- The document `{"treatedCollection":"treatB"}`. -/
def doc_no_control : bson_t := [text_element "treatedCollection" "treatB"]

/-- The document `{"controlCollection":"","treatedCollection":""}`. -/
def doc_empty_required : bson_t :=
  [text_element "controlCollection" "", text_element "treatedCollection" ""]

/-- The document `{"controlCollection":"a\u0000b","treatedCollection":"treatB",
"markerName":"\u0000CD45"}`. -/
def doc_nul : bson_t :=
  [text_element "controlCollection" "a\x00b", text_element "treatedCollection" "treatB",
   text_element "markerName" "\x00CD45"]

/-! ## C strings and the heap: lemmas -/

/-- A text without a NUL character is read back whole. -/
lemma cstr_eq_self (s : String) (hs : NUL ∉ s.data) : cstr s = s := by
  have h : s.data.takeWhile (fun c => c != NUL) = s.data := by
    rw [List.takeWhile_eq_self_iff]
    intro c hc
    have hne : c ≠ NUL := fun e => hs (e ▸ hc)
    simpa using hne
  unfold cstr
  rw [h]

/-- A C string of positive length is not the empty string. -/
lemma cstr_ne_empty (s : String) (hs : strlen s > 0) : cstr s ≠ "" := by
  intro e
  unfold strlen at hs
  rw [e] at hs
  exact absurd hs (by decide)

/-- A C string that is not empty has positive length. -/
lemma strlen_pos (s : String) (hs : cstr s ≠ "") : strlen s > 0 := by
  unfold strlen
  rcases hd : (cstr s).data with _ | ⟨a, l⟩
  · exact absurd (String.ext hd) hs
  · simp

/-- The cell just allocated holds what was put there. -/
lemma deref_last (h : Heap) (x : String) : deref (h ++ [some x]) (some h.length) = some x := by
  simp [deref, List.get?_eq_getElem?]

/-- Allocating leaves the older cells as they are. -/
lemma deref_append (h t : Heap) (a : Nat) (ha : a < h.length) :
    deref (h ++ t) (some a) = deref h (some a) := by
  simp [deref, List.get?_eq_getElem?, List.getElem?_append_left ha]

/-! ## The four ways through `extract_fields` -/

lemma extract_fields_no_control (bson : bson_t) (ev : List Event) (h : Heap)
    (input : AnalysisInput) (hc : find_utf8 bson "controlCollection" = none) :
    extract_fields bson ev h input =
      { ret := -1
        events := ev ++ [.stderr "Error: Missing or invalid 'controlCollection' field\n"]
        heap := h
        input := input } := by
  simp [extract_fields, hc]

lemma extract_fields_no_treated (bson : bson_t) (ev : List Event) (h : Heap)
    (input : AnalysisInput) (c : String) (hc : find_utf8 bson "controlCollection" = some c)
    (ht : find_utf8 bson "treatedCollection" = none) :
    extract_fields bson ev h input =
      { ret := -1
        events := ev ++ [.stderr "Error: Missing or invalid 'treatedCollection' field\n"]
        heap := (h ++ [some (cstr c)]).set h.length none
        input := { input with control_collection := some h.length } } := by
  simp [extract_fields, hc, ht, strdup, free]

lemma extract_fields_no_marker (bson : bson_t) (ev : List Event) (h : Heap)
    (input : AnalysisInput) (c t : String) (hc : find_utf8 bson "controlCollection" = some c)
    (ht : find_utf8 bson "treatedCollection" = some t)
    (hm : ∀ m ∈ find_utf8 bson "markerName", strlen m = 0) :
    extract_fields bson ev h input =
      { ret := 0
        events := ev
        heap := h ++ [some (cstr c)] ++ [some (cstr t)]
        input := ⟨some h.length, some (h.length + 1), none, 0⟩ } := by
  rcases hf : find_utf8 bson "markerName" with _ | m
  · simp [extract_fields, hc, ht, hf, strdup]
  · have h0 : strlen m = 0 := hm m (by simp [hf])
    simp [extract_fields, hc, ht, hf, strdup, h0]

lemma extract_fields_marker (bson : bson_t) (ev : List Event) (h : Heap)
    (input : AnalysisInput) (c t m : String)
    (hc : find_utf8 bson "controlCollection" = some c)
    (ht : find_utf8 bson "treatedCollection" = some t)
    (hm : find_utf8 bson "markerName" = some m) (hlen : strlen m > 0) :
    extract_fields bson ev h input =
      { ret := 0
        events := ev
        heap := h ++ [some (cstr c)] ++ [some (cstr t)] ++ [some (cstr m)]
        input := ⟨some h.length, some (h.length + 1), some (h.length + 2), 1⟩ } := by
  simp [extract_fields, hc, ht, hm, strdup, hlen]

/-- With the file read and parsed, `parse_input_file` is `extract_fields` on the document. -/
lemma parse_input_file_eq (w : World) (filename content : String) (bson : bson_t) (h : Heap)
    (input : AnalysisInput) (hopen : w.fopen_read filename = some content)
    (hparse : w.bson_new_from_json content = .ok bson) :
    parse_input_file w filename h input =
      extract_fields bson [.open_read filename] h input := by
  simp [parse_input_file, hopen, hparse]

/-- A call that returns 0 has read the file, parsed it, and found both required fields as
UTF-8 elements. -/
lemma parse_input_file_ret_zero (w : World) (filename : String) (h : Heap)
    (input : AnalysisInput) (hret : (parse_input_file w filename h input).ret = 0) :
    ∃ content bson c t, w.fopen_read filename = some content ∧
      w.bson_new_from_json content = .ok bson ∧
      find_utf8 bson "controlCollection" = some c ∧
      find_utf8 bson "treatedCollection" = some t := by
  rcases hopen : w.fopen_read filename with _ | content
  · simp [parse_input_file, hopen] at hret
  rcases hparse : w.bson_new_from_json content with message | bson
  · simp [parse_input_file, hopen, hparse] at hret
  rw [parse_input_file_eq w filename content bson h input hopen hparse] at hret
  rcases hc : find_utf8 bson "controlCollection" with _ | c
  · rw [extract_fields_no_control bson _ h input hc] at hret
    simp at hret
  rcases ht : find_utf8 bson "treatedCollection" with _ | t
  · rw [extract_fields_no_treated bson _ h input c hc ht] at hret
    simp at hret
  exact ⟨content, bson, c, t, rfl, hparse, hc, ht⟩

/-- What `extract_fields` leaves behind when both required fields are UTF-8 elements: the two
C strings, and either the marker's C string with the flag 1, or NULL with the flag 0. -/
lemma extract_fields_found (bson : bson_t) (ev : List Event) (h : Heap)
    (input : AnalysisInput) (c t : String)
    (hc : find_utf8 bson "controlCollection" = some c)
    (ht : find_utf8 bson "treatedCollection" = some t) :
    (extract_fields bson ev h input).ret = 0 ∧
    (extract_fields bson ev h input).events = ev ∧
    deref (extract_fields bson ev h input).heap
      (extract_fields bson ev h input).input.control_collection = some (cstr c) ∧
    deref (extract_fields bson ev h input).heap
      (extract_fields bson ev h input).input.treated_collection = some (cstr t) ∧
    ((∃ m, find_utf8 bson "markerName" = some m ∧ strlen m > 0 ∧
        (extract_fields bson ev h input).input.has_marker = 1 ∧
        deref (extract_fields bson ev h input).heap
          (extract_fields bson ev h input).input.marker_name = some (cstr m)) ∨
     ((∀ m ∈ find_utf8 bson "markerName", strlen m = 0) ∧
        (extract_fields bson ev h input).input.has_marker = 0 ∧
        (extract_fields bson ev h input).input.marker_name = none)) := by
  have h0 : h.length < (h ++ [some (cstr c)]).length := by simp
  have h1 : h.length + 1 = (h ++ [some (cstr c)]).length := by simp
  have h1lt : h.length + 1 < (h ++ [some (cstr c)] ++ [some (cstr t)]).length := by simp
  have h2 : h.length + 2 = (h ++ [some (cstr c)] ++ [some (cstr t)]).length := by simp
  have dc : deref (h ++ [some (cstr c)] ++ [some (cstr t)]) (some h.length) = some (cstr c) := by
    rw [deref_append _ _ _ h0, deref_last]
  have dt : deref (h ++ [some (cstr c)] ++ [some (cstr t)]) (some (h.length + 1)) =
      some (cstr t) := by
    rw [h1, deref_last]
  by_cases hm : ∀ m ∈ find_utf8 bson "markerName", strlen m = 0
  · rw [extract_fields_no_marker bson ev h input c t hc ht hm]
    exact ⟨rfl, rfl, dc, dt, Or.inr ⟨hm, rfl, rfl⟩⟩
  · push_neg at hm
    obtain ⟨m, hmem, hlen⟩ := hm
    have hfm : find_utf8 bson "markerName" = some m := by simpa using hmem
    have hpos : strlen m > 0 := Nat.pos_of_ne_zero hlen
    rw [extract_fields_marker bson ev h input c t m hc ht hfm hpos]
    refine ⟨rfl, rfl, ?_, ?_, Or.inl ⟨m, hfm, hpos, rfl, ?_⟩⟩
    · show deref (h ++ [some (cstr c)] ++ [some (cstr t)] ++ [some (cstr m)]) (some h.length) = _
      rw [deref_append _ [some (cstr m)] _ (by simp), dc]
    · show deref (h ++ [some (cstr c)] ++ [some (cstr t)] ++ [some (cstr m)])
        (some (h.length + 1)) = _
      rw [deref_append _ [some (cstr m)] _ h1lt, dt]
    · show deref (h ++ [some (cstr c)] ++ [some (cstr t)] ++ [some (cstr m)])
        (some (h.length + 2)) = _
      rw [h2, deref_last]

/-- Where a failed call leaves the heap and the record: untouched, except when
`controlCollection` was found as a UTF-8 element and `treatedCollection` was not; then
`control_collection` holds the address of a block that has been freed. -/
lemma parse_input_file_failure_state (w : World) (filename : String) (h : Heap)
    (input : AnalysisInput) (hret : (parse_input_file w filename h input).ret ≠ 0) :
    ((parse_input_file w filename h input).heap = h ∧
      (parse_input_file w filename h input).input = input) ∨
    ((parse_input_file w filename h input).input =
        { input with control_collection := some h.length } ∧
      deref (parse_input_file w filename h input).heap (some h.length) = none) := by
  rcases hopen : w.fopen_read filename with _ | content
  · simp [parse_input_file, hopen]
  rcases hparse : w.bson_new_from_json content with message | bson
  · simp [parse_input_file, hopen, hparse]
  rw [parse_input_file_eq w filename content bson h input hopen hparse] at hret ⊢
  rcases hc : find_utf8 bson "controlCollection" with _ | c
  · rw [extract_fields_no_control bson _ h input hc]
    exact Or.inl ⟨rfl, rfl⟩
  rcases ht : find_utf8 bson "treatedCollection" with _ | t
  · rw [extract_fields_no_treated bson _ h input c hc ht]
    refine Or.inr ⟨rfl, ?_⟩
    simp [deref, List.get?_eq_getElem?, List.getElem?_set]
  exact absurd (extract_fields_found bson _ h input c t hc ht).1 hret

/-! ## The loader: claims -/

/-- C1, as stated, fails on a text with a NUL character in it: `"a\u0000b"` is a non-empty
text value of `controlCollection`, the call returns 0, and `control_collection` is `"a"`; the
non-empty text `"\u0000CD45"` of `markerName` leaves `has_marker = 0` and `marker_name` NULL. -/
theorem parse_input_file_cuts_at_nul :
    find_utf8 doc_nul "controlCollection" = some "a\x00b" ∧ "a\x00b" ≠ "" ∧
    find_utf8 doc_nul "treatedCollection" = some "treatB" ∧ "treatB" ≠ "" ∧
    find_utf8 doc_nul "markerName" = some "\x00CD45" ∧ "\x00CD45" ≠ "" ∧
    (load_sample doc_nul).ret = 0 ∧
    (load_sample doc_nul).control = some "a" ∧
    (load_sample doc_nul).control ≠ some "a\x00b" ∧
    (load_sample doc_nul).input.has_marker = 0 ∧
    (load_sample doc_nul).input.marker_name = none := by
  decide

/-- C1 (amended): when the file is read and parsed into a document whose `controlCollection`
and `treatedCollection` are UTF-8 elements with non-empty texts, and the texts of these and of
a UTF-8 `markerName` hold no NUL character, `parse_input_file` returns 0, `control_collection`
and `treated_collection` are exactly those texts, `marker_name` is the text of `markerName`
when that is a non-empty text, and `has_marker` is 1 exactly when the document has a
non-empty text `markerName`, 0 otherwise. -/
theorem parse_input_file_loads_fields (w : World) (filename content : String) (bson : bson_t)
    (h : Heap) (input : AnalysisInput) (c t : String)
    (hopen : w.fopen_read filename = some content)
    (hparse : w.bson_new_from_json content = .ok bson)
    (hc : find_utf8 bson "controlCollection" = some c)
    (ht : find_utf8 bson "treatedCollection" = some t)
    (_hc0 : c ≠ "") (_ht0 : t ≠ "")
    (hcn : NUL ∉ c.data) (htn : NUL ∉ t.data)
    (hmn : ∀ m ∈ find_utf8 bson "markerName", NUL ∉ m.data) :
    (parse_input_file w filename h input).ret = 0 ∧
    (parse_input_file w filename h input).control = some c ∧
    (parse_input_file w filename h input).treated = some t ∧
    (∀ m, find_utf8 bson "markerName" = some m → m ≠ "" →
      (parse_input_file w filename h input).marker = some m) ∧
    ((parse_input_file w filename h input).input.has_marker = 1 ↔
      ∃ m, find_utf8 bson "markerName" = some m ∧ m ≠ "") ∧
    ((parse_input_file w filename h input).input.has_marker = 0 ↔
      ¬ ∃ m, find_utf8 bson "markerName" = some m ∧ m ≠ "") := by
  rw [parse_input_file_eq w filename content bson h input hopen hparse]
  obtain ⟨hret, -, dc, dt, hmark⟩ :=
    extract_fields_found bson [.open_read filename] h input c t hc ht
  rw [cstr_eq_self c hcn] at dc
  rw [cstr_eq_self t htn] at dt
  refine ⟨hret, dc, dt, ?_⟩
  rcases hmark with ⟨m, hfm, hlen, hflag, dm⟩ | ⟨hall, hflag, hnull⟩
  · have hm : cstr m = m := cstr_eq_self m (hmn m (by simp [hfm]))
    have hne : m ≠ "" := hm ▸ cstr_ne_empty m hlen
    rw [hm] at dm
    refine ⟨?_, ?_, ?_⟩
    · intro m2 hm2 _
      rw [hfm] at hm2
      cases hm2
      exact dm
    · exact ⟨fun _ => ⟨m, hfm, hne⟩, fun _ => hflag⟩
    · rw [hflag]
      exact ⟨fun e => absurd e (by decide), fun e => absurd ⟨m, hfm, hne⟩ e⟩
  · have hnone : ¬ ∃ m, find_utf8 bson "markerName" = some m ∧ m ≠ "" := by
      rintro ⟨m, hfm, hne⟩
      have hmem : m ∈ find_utf8 bson "markerName" := by simp [hfm]
      have hz : strlen m = 0 := hall m hmem
      have hpos : strlen m > 0 := strlen_pos m (by rw [cstr_eq_self m (hmn m hmem)]; exact hne)
      omega
    refine ⟨?_, ?_, ?_⟩
    · intro m hfm hne
      exact absurd ⟨m, hfm, hne⟩ hnone
    · rw [hflag]
      exact ⟨fun e => absurd e (by decide), fun e => absurd e hnone⟩
    · exact ⟨fun _ => hnone, fun _ => hflag⟩

/-- C1 at the two documents of the specification: `doc_required` gives `ctrlA`, `treatB` and
`has_marker = 0`; `doc_marker` gives `has_marker = 1` and `marker_name = "CD45"`. -/
theorem parse_input_file_loads_fields_witness :
    ((load_sample doc_required).ret = 0 ∧
      (load_sample doc_required).control = some "ctrlA" ∧
      (load_sample doc_required).treated = some "treatB" ∧
      (load_sample doc_required).input.has_marker = 0) ∧
    ((load_sample doc_marker).ret = 0 ∧
      (load_sample doc_marker).marker = some "CD45" ∧
      (load_sample doc_marker).input.has_marker = 1) := by
  have h1 := parse_input_file_loads_fields (one_file_world doc_required) "in.json" "content"
    doc_required [] zeroed "ctrlA" "treatB" rfl rfl (by decide) (by decide) (by decide)
    (by decide) (by decide) (by decide) (by decide)
  have h2 := parse_input_file_loads_fields (one_file_world doc_marker) "in.json" "content"
    doc_marker [] zeroed "ctrlA" "treatB" rfl rfl (by decide) (by decide) (by decide)
    (by decide) (by decide) (by decide) (by decide)
  refine ⟨⟨h1.1, h1.2.1, h1.2.2.1, ?_⟩, h2.1, ?_, ?_⟩
  · exact h1.2.2.2.2.2.2 (by decide)
  · exact h2.2.2.2.1 "CD45" (by decide) (by decide)
  · exact h2.2.2.2.2.1.2 ⟨"CD45", by decide, by decide⟩

/-- C2, as stated, fails on `{"controlCollection":"","treatedCollection":""}`: the call
returns 0 and both strings of the record are empty. -/
theorem parse_input_file_accepts_empty_required :
    find_utf8 doc_empty_required "controlCollection" = some "" ∧
    find_utf8 doc_empty_required "treatedCollection" = some "" ∧
    (load_sample doc_empty_required).ret = 0 ∧
    (load_sample doc_empty_required).control = some "" ∧
    (load_sample doc_empty_required).treated = some "" := by
  decide

/-- C2 (amended): whenever `parse_input_file` returns 0, the file was read and parsed into a
document whose `controlCollection` and `treatedCollection` are UTF-8 elements, and
`control_collection` and `treated_collection` of the record are both non-null and point to the
C strings of those two texts; each of the two strings is non-empty exactly when the text it was
taken from is non-empty as a C string (`strlen > 0`: it has a first character, and that one is
not NUL). -/
theorem parse_input_file_required_non_null (w : World) (filename : String) (h : Heap)
    (input : AnalysisInput) (hret : (parse_input_file w filename h input).ret = 0) :
    ∃ content bson c t,
      w.fopen_read filename = some content ∧
      w.bson_new_from_json content = .ok bson ∧
      find_utf8 bson "controlCollection" = some c ∧
      find_utf8 bson "treatedCollection" = some t ∧
      (parse_input_file w filename h input).input.control_collection ≠ none ∧
      (parse_input_file w filename h input).input.treated_collection ≠ none ∧
      (parse_input_file w filename h input).control = some (cstr c) ∧
      (parse_input_file w filename h input).treated = some (cstr t) ∧
      (cstr c ≠ "" ↔ strlen c > 0) ∧
      (cstr t ≠ "" ↔ strlen t > 0) := by
  obtain ⟨content, bson, c, t, hopen, hparse, hc, ht⟩ :=
    parse_input_file_ret_zero w filename h input hret
  refine ⟨content, bson, c, t, hopen, hparse, hc, ht, ?_⟩
  rw [parse_input_file_eq w filename content bson h input hopen hparse]
  obtain ⟨-, -, dc, dt, -⟩ :=
    extract_fields_found bson [.open_read filename] h input c t hc ht
  refine ⟨?_, ?_, dc, dt, ⟨strlen_pos c, cstr_ne_empty c⟩, ⟨strlen_pos t, cstr_ne_empty t⟩⟩
  · intro e
    rw [e] at dc
    simp [deref] at dc
  · intro e
    rw [e] at dt
    simp [deref] at dt

/-- C2 (amended) at `doc_required`: the call returns 0, both pointers are non-null, and the
two strings are the non-empty `ctrlA` and `treatB`. -/
theorem parse_input_file_required_non_null_witness :
    (load_sample doc_required).ret = 0 ∧
    (load_sample doc_required).input.control_collection ≠ none ∧
    (load_sample doc_required).input.treated_collection ≠ none ∧
    (∃ c, find_utf8 doc_required "controlCollection" = some c ∧
      (load_sample doc_required).control = some (cstr c) ∧ cstr c ≠ "") ∧
    (∃ t, find_utf8 doc_required "treatedCollection" = some t ∧
      (load_sample doc_required).treated = some (cstr t) ∧ cstr t ≠ "") := by
  obtain ⟨content, bson, c, t, hopen, hparse, hc, ht, pc, pt, dc, dt, ec, et⟩ :=
    parse_input_file_required_non_null (one_file_world doc_required) "in.json" [] zeroed
      (by decide)
  have e1 : content = "content" := by
    have hopen2 : some "content" = some content := hopen
    cases hopen2
    rfl
  subst e1
  have e2 : bson = doc_required := by
    have hparse2 : (Except.ok doc_required : Except String bson_t) = .ok bson := hparse
    cases hparse2
    rfl
  subst e2
  have hc2 : some "ctrlA" = some c := hc
  have ht2 : some "treatB" = some t := ht
  cases hc2
  cases ht2
  exact ⟨by decide, pc, pt, ⟨_, hc, dc, ec.2 (by decide)⟩, ⟨_, ht, dt, et.2 (by decide)⟩⟩

/-- C3: when the file is read and parsed into a document, (1) if `controlCollection` is absent
or is not a UTF-8 element, `parse_input_file` returns -1 and its only message is the
missing-or-invalid error naming `controlCollection`; (2) if `controlCollection` is a UTF-8
element and `treatedCollection` is absent or is not a UTF-8 element, it returns -1 and its only
message is the missing-or-invalid error naming `treatedCollection`. -/
theorem parse_input_file_rejects_missing_required (w : World) (filename content : String)
    (bson : bson_t) (h : Heap) (input : AnalysisInput)
    (hopen : w.fopen_read filename = some content)
    (hparse : w.bson_new_from_json content = .ok bson) :
    ((bson_iter_init_find bson "controlCollection" = none ∨
        ∃ v, bson_iter_init_find bson "controlCollection" = some v ∧
          bson_iter_utf8 v = none) →
      (parse_input_file w filename h input).ret = -1 ∧
      (parse_input_file w filename h input).events = [.open_read filename,
        .stderr "Error: Missing or invalid 'controlCollection' field\n"]) ∧
    (∀ c, bson_iter_init_find bson "controlCollection" = some (.utf8 c) →
      (bson_iter_init_find bson "treatedCollection" = none ∨
        ∃ v, bson_iter_init_find bson "treatedCollection" = some v ∧
          bson_iter_utf8 v = none) →
      (parse_input_file w filename h input).ret = -1 ∧
      (parse_input_file w filename h input).events = [.open_read filename,
        .stderr "Error: Missing or invalid 'treatedCollection' field\n"]) := by
  rw [parse_input_file_eq w filename content bson h input hopen hparse]
  constructor
  · intro habs
    have hc : find_utf8 bson "controlCollection" = none := by
      rcases habs with e | ⟨v, e, hv⟩
      · simp [find_utf8, e]
      · simp [find_utf8, e, hv]
    rw [extract_fields_no_control bson _ h input hc]
    exact ⟨rfl, rfl⟩
  · intro c hfc habs
    have hc : find_utf8 bson "controlCollection" = some c := by
      simp [find_utf8, hfc, bson_iter_utf8]
    have ht : find_utf8 bson "treatedCollection" = none := by
      rcases habs with e | ⟨v, e, hv⟩
      · simp [find_utf8, e]
      · simp [find_utf8, e, hv]
    rw [extract_fields_no_treated bson _ h input c hc ht]
    exact ⟨rfl, rfl⟩

/-- C3 at `{"treatedCollection":"treatB"}` (no `controlCollection`) and at
`{"controlCollection":"ctrlA"}` (no `treatedCollection`). -/
theorem parse_input_file_rejects_missing_required_witness :
    ((load_sample doc_no_control).ret = -1 ∧
      (load_sample doc_no_control).events = [.open_read "in.json",
        .stderr "Error: Missing or invalid 'controlCollection' field\n"]) ∧
    ((load_sample doc_no_treated).ret = -1 ∧
      (load_sample doc_no_treated).events = [.open_read "in.json",
        .stderr "Error: Missing or invalid 'treatedCollection' field\n"]) :=
  ⟨(parse_input_file_rejects_missing_required (one_file_world doc_no_control) "in.json"
      "content" doc_no_control [] zeroed rfl rfl).1 (Or.inl rfl),
   (parse_input_file_rejects_missing_required (one_file_world doc_no_treated) "in.json"
      "content" doc_no_treated [] zeroed rfl rfl).2 "ctrlA" rfl (Or.inl rfl)⟩

/-- C4 fails on `{"controlCollection":"ctrlA"}` given the zeroed record: the call returns -1,
and `control_collection`, NULL before the call, is left holding the address of the block the
call allocated and freed; the other three fields are as before. -/
theorem parse_input_file_leaves_dangling_control :
    (load_sample doc_no_treated).ret = -1 ∧
    (load_sample doc_no_treated).input ≠ zeroed ∧
    (load_sample doc_no_treated).input.control_collection = some 0 ∧
    (load_sample doc_no_treated).heap = [none] ∧
    (load_sample doc_no_treated).control = none ∧
    (load_sample doc_no_treated).input.treated_collection = zeroed.treated_collection ∧
    (load_sample doc_no_treated).input.marker_name = zeroed.marker_name ∧
    (load_sample doc_no_treated).input.has_marker = zeroed.has_marker := by
  decide

/-- C5: whenever `parse_input_file` returns 0, whatever the record and the heap were before,
`has_marker` is non-zero if and only if `marker_name` is non-null and points to a non-empty
string; and when `has_marker` is 0, `marker_name` is NULL. -/
theorem parse_input_file_marker_flag (w : World) (filename : String) (h : Heap)
    (input : AnalysisInput) (hret : (parse_input_file w filename h input).ret = 0) :
    ((parse_input_file w filename h input).input.has_marker ≠ 0 ↔
      ((parse_input_file w filename h input).input.marker_name ≠ none ∧
        ∃ m, (parse_input_file w filename h input).marker = some m ∧ m ≠ "")) ∧
    ((parse_input_file w filename h input).input.has_marker = 0 →
      (parse_input_file w filename h input).input.marker_name = none) := by
  obtain ⟨content, bson, c, t, hopen, hparse, hc, ht⟩ :=
    parse_input_file_ret_zero w filename h input hret
  rw [parse_input_file_eq w filename content bson h input hopen hparse]
  obtain ⟨-, -, -, -, hmark⟩ :=
    extract_fields_found bson [.open_read filename] h input c t hc ht
  rcases hmark with ⟨m, -, hlen, hflag, dm⟩ | ⟨-, hflag, hnull⟩
  · have hptr :
        (extract_fields bson [.open_read filename] h input).input.marker_name ≠ none := by
      intro e
      rw [e] at dm
      simp [deref] at dm
    rw [hflag]
    refine ⟨⟨fun _ => ⟨hptr, cstr m, dm, cstr_ne_empty m hlen⟩, fun _ => by decide⟩, ?_⟩
    intro e
    exact absurd e (by decide)
  · rw [hflag, hnull]
    refine ⟨⟨fun e => absurd rfl e, fun e => absurd rfl e.1⟩, fun _ => rfl⟩

/-- C5 at `doc_marker`, starting from a record whose marker pointer dangles and whose flag
is 5: the flag left is non-zero and `marker_name` points to a non-empty string. -/
theorem parse_input_file_marker_flag_witness :
    (parse_input_file (one_file_world doc_marker) "in.json" [none] stale_record).ret = 0 ∧
    (parse_input_file (one_file_world doc_marker) "in.json" [none]
      stale_record).input.has_marker ≠ 0 ∧
    ((parse_input_file (one_file_world doc_marker) "in.json" [none]
        stale_record).input.marker_name ≠ none ∧
      ∃ m, (parse_input_file (one_file_world doc_marker) "in.json" [none]
        stale_record).marker = some m ∧ m ≠ "") :=
  ⟨by decide, by decide,
    (parse_input_file_marker_flag (one_file_world doc_marker) "in.json" [none] stale_record
      (by decide)).1.1 (by decide)⟩

/-! ## Documents with an element added or removed -/

lemma bson_iter_init_find_append (a b : bson_t) (key : String) :
    bson_iter_init_find (a ++ b) key =
      match bson_iter_init_find a key with
      | some v => some v
      | none => bson_iter_init_find b key := by
  induction a with
  | nil => simp [bson_iter_init_find]
  | cons e rest ih =>
    obtain ⟨k, v⟩ := e
    by_cases hk : k = key
    · simp [bson_iter_init_find, hk]
    · simp [bson_iter_init_find, hk, ih]

/-- An element put into a document does not change what is found under another key. -/
lemma bson_iter_init_find_insert_other (pre post : bson_t) (k key : String) (v : bson_value)
    (hk : k ≠ key) :
    bson_iter_init_find (pre ++ [(k, v)] ++ post) key = bson_iter_init_find (pre ++ post) key := by
  rw [List.append_assoc, bson_iter_init_find_append pre, bson_iter_init_find_append pre]
  simp [bson_iter_init_find, hk]

/-- An element put into a document that has none under its key is the one found there. -/
lemma bson_iter_init_find_insert_same (pre post : bson_t) (k : String) (v : bson_value)
    (hnone : bson_iter_init_find (pre ++ post) k = none) :
    bson_iter_init_find (pre ++ [(k, v)] ++ post) k = some v := by
  rw [bson_iter_init_find_append pre] at hnone
  rw [List.append_assoc, bson_iter_init_find_append pre]
  rcases hp : bson_iter_init_find pre k with _ | x
  · simp [bson_iter_init_find]
  · rw [hp] at hnone
    simp at hnone

/-- Removing every element under one key: nothing is found under it any more, and what is found
under another key is unchanged. -/
lemma bson_iter_init_find_remove_key (bson : bson_t) (k key : String) :
    bson_iter_init_find (remove_key bson k) key =
      if key = k then none else bson_iter_init_find bson key := by
  induction bson with
  | nil => simp [remove_key, bson_iter_init_find]
  | cons e rest ih =>
    obtain ⟨k1, v⟩ := e
    by_cases h1 : k1 = k
    · by_cases h2 : key = k
      · subst h2
        simpa [remove_key, h1] using ih
      · have h3 : ¬ k = key := fun e => h2 e.symm
        simp [remove_key, bson_iter_init_find, h1, h2, h3, ih]
    · by_cases h2 : key = k
      · subst h2
        simpa [remove_key, bson_iter_init_find, h1] using ih
      · simp [remove_key, bson_iter_init_find, h1, h2, ih]

/-- C6: take a document, split anywhere as `pre ++ post`, whose `controlCollection` and
`treatedCollection` are UTF-8 elements and which has no `markerName`.  Loading it, and loading
it with `"markerName":""` put between `pre` and `post`, both return 0 and leave equal records
on equal heaps: the same `control_collection` and `treated_collection`, `marker_name` NULL and
`has_marker` 0. -/
theorem parse_input_file_empty_marker_as_absent (w : World) (f1 f2 content1 content2 : String)
    (pre post : bson_t) (h : Heap) (input : AnalysisInput) (c t : String)
    (hopen1 : w.fopen_read f1 = some content1)
    (hparse1 : w.bson_new_from_json content1 = .ok (pre ++ post))
    (hopen2 : w.fopen_read f2 = some content2)
    (hparse2 : w.bson_new_from_json content2 =
      .ok (pre ++ [("markerName", bson_value.utf8 "")] ++ post))
    (hc : find_utf8 (pre ++ post) "controlCollection" = some c)
    (ht : find_utf8 (pre ++ post) "treatedCollection" = some t)
    (hm : bson_iter_init_find (pre ++ post) "markerName" = none) :
    (parse_input_file w f1 h input).ret = 0 ∧ (parse_input_file w f2 h input).ret = 0 ∧
    (parse_input_file w f2 h input).input = (parse_input_file w f1 h input).input ∧
    (parse_input_file w f2 h input).heap = (parse_input_file w f1 h input).heap ∧
    (parse_input_file w f1 h input).control = some (cstr c) ∧
    (parse_input_file w f2 h input).control = some (cstr c) ∧
    (parse_input_file w f1 h input).treated = some (cstr t) ∧
    (parse_input_file w f2 h input).treated = some (cstr t) ∧
    (parse_input_file w f1 h input).input.marker_name = none ∧
    (parse_input_file w f2 h input).input.marker_name = none ∧
    (parse_input_file w f1 h input).input.has_marker = 0 ∧
    (parse_input_file w f2 h input).input.has_marker = 0 := by
  have hc2 : find_utf8 (pre ++ [("markerName", bson_value.utf8 "")] ++ post) "controlCollection"
      = some c := by
    unfold find_utf8 at hc ⊢
    rw [bson_iter_init_find_insert_other pre post _ _ _ (by decide)]
    exact hc
  have ht2 : find_utf8 (pre ++ [("markerName", bson_value.utf8 "")] ++ post) "treatedCollection"
      = some t := by
    unfold find_utf8 at ht ⊢
    rw [bson_iter_init_find_insert_other pre post _ _ _ (by decide)]
    exact ht
  have hm1 : ∀ m ∈ find_utf8 (pre ++ post) "markerName", strlen m = 0 := by
    simp [find_utf8, hm]
  have hm2 : ∀ m ∈ find_utf8 (pre ++ [("markerName", bson_value.utf8 "")] ++ post) "markerName",
      strlen m = 0 := by
    intro m hmem
    unfold find_utf8 at hmem
    rw [bson_iter_init_find_insert_same pre post _ _ hm] at hmem
    have e : m = "" := by simpa [bson_iter_utf8] using hmem.symm
    rw [e]
    decide
  obtain ⟨r1, -, dc1, dt1, -⟩ :=
    extract_fields_found (pre ++ post) [.open_read f1] h input c t hc ht
  obtain ⟨r2, -, dc2, dt2, -⟩ :=
    extract_fields_found (pre ++ [("markerName", bson_value.utf8 "")] ++ post)
      [.open_read f2] h input c t hc2 ht2
  rw [parse_input_file_eq w f1 content1 _ h input hopen1 hparse1,
    parse_input_file_eq w f2 content2 _ h input hopen2 hparse2]
  have e1 := extract_fields_no_marker _ [.open_read f1] h input c t hc ht hm1
  have e2 := extract_fields_no_marker _ [.open_read f2] h input c t hc2 ht2 hm2
  refine ⟨r1, r2, ?_, ?_, dc1, dc2, dt1, dt2, ?_, ?_, ?_, ?_⟩ <;> simp only [e1, e2]

/-- C6 at `doc_required` and `doc_empty_marker`, two files of one world. -/
theorem parse_input_file_empty_marker_as_absent_witness :
    (parse_input_file (table_world [("a.json", "A"), ("b.json", "B")]
        [("A", doc_required), ("B", doc_empty_marker)]) "b.json" [] zeroed).ret = 0 ∧
    (parse_input_file (table_world [("a.json", "A"), ("b.json", "B")]
        [("A", doc_required), ("B", doc_empty_marker)]) "b.json" [] zeroed).input =
      (parse_input_file (table_world [("a.json", "A"), ("b.json", "B")]
        [("A", doc_required), ("B", doc_empty_marker)]) "a.json" [] zeroed).input ∧
    (parse_input_file (table_world [("a.json", "A"), ("b.json", "B")]
        [("A", doc_required), ("B", doc_empty_marker)]) "b.json" [] zeroed).input.has_marker
      = 0 := by
  have hw := parse_input_file_empty_marker_as_absent
    (table_world [("a.json", "A"), ("b.json", "B")]
      [("A", doc_required), ("B", doc_empty_marker)])
    "a.json" "b.json" "A" "B" doc_required [] [] zeroed "ctrlA" "treatB"
    rfl rfl rfl rfl (by decide) (by decide) rfl
  exact ⟨hw.2.1, hw.2.2.1, hw.2.2.2.2.2.2.2.2.2.2.2⟩

/-- C10: take a document whose `controlCollection` and `treatedCollection` are UTF-8 elements
and whose `markerName` is present but is not a UTF-8 element.  Loading it, and loading it with
the `markerName` elements removed, both return 0 and leave equal records on equal heaps, with
`marker_name` NULL and `has_marker` 0. -/
theorem parse_input_file_ignores_non_text_marker (w : World) (f1 f2 content1 content2 : String)
    (bson : bson_t) (h : Heap) (input : AnalysisInput) (c t : String) (v : bson_value)
    (hopen1 : w.fopen_read f1 = some content1)
    (hparse1 : w.bson_new_from_json content1 = .ok bson)
    (hopen2 : w.fopen_read f2 = some content2)
    (hparse2 : w.bson_new_from_json content2 = .ok (remove_key bson "markerName"))
    (hc : find_utf8 bson "controlCollection" = some c)
    (ht : find_utf8 bson "treatedCollection" = some t)
    (hm : bson_iter_init_find bson "markerName" = some v)
    (hv : bson_iter_utf8 v = none) :
    (parse_input_file w f1 h input).ret = 0 ∧ (parse_input_file w f2 h input).ret = 0 ∧
    (parse_input_file w f1 h input).input = (parse_input_file w f2 h input).input ∧
    (parse_input_file w f1 h input).heap = (parse_input_file w f2 h input).heap ∧
    (parse_input_file w f1 h input).control = some (cstr c) ∧
    (parse_input_file w f1 h input).treated = some (cstr t) ∧
    (parse_input_file w f1 h input).input.marker_name = none ∧
    (parse_input_file w f1 h input).input.has_marker = 0 := by
  have hc2 : find_utf8 (remove_key bson "markerName") "controlCollection" = some c := by
    unfold find_utf8 at hc ⊢
    rw [bson_iter_init_find_remove_key, if_neg (by decide)]
    exact hc
  have ht2 : find_utf8 (remove_key bson "markerName") "treatedCollection" = some t := by
    unfold find_utf8 at ht ⊢
    rw [bson_iter_init_find_remove_key, if_neg (by decide)]
    exact ht
  have hm1 : ∀ m ∈ find_utf8 bson "markerName", strlen m = 0 := by
    simp [find_utf8, hm, hv]
  have hm2 : ∀ m ∈ find_utf8 (remove_key bson "markerName") "markerName", strlen m = 0 := by
    simp [find_utf8, bson_iter_init_find_remove_key]
  obtain ⟨r1, -, dc1, dt1, -⟩ := extract_fields_found bson [.open_read f1] h input c t hc ht
  obtain ⟨r2, -, -, -, -⟩ :=
    extract_fields_found (remove_key bson "markerName") [.open_read f2] h input c t hc2 ht2
  rw [parse_input_file_eq w f1 content1 _ h input hopen1 hparse1,
    parse_input_file_eq w f2 content2 _ h input hopen2 hparse2]
  have e1 := extract_fields_no_marker _ [.open_read f1] h input c t hc ht hm1
  have e2 := extract_fields_no_marker _ [.open_read f2] h input c t hc2 ht2 hm2
  refine ⟨r1, r2, ?_, ?_, dc1, dt1, ?_, ?_⟩ <;> simp only [e1, e2]

/-- C10 at `doc_number_marker` (`"markerName":7`), whose removal gives `doc_required`. -/
theorem parse_input_file_ignores_non_text_marker_witness :
    (parse_input_file (table_world [("a.json", "A"), ("b.json", "B")]
        [("A", doc_number_marker), ("B", doc_required)]) "a.json" [] zeroed).ret = 0 ∧
    (parse_input_file (table_world [("a.json", "A"), ("b.json", "B")]
        [("A", doc_number_marker), ("B", doc_required)]) "a.json" [] zeroed).input =
      (parse_input_file (table_world [("a.json", "A"), ("b.json", "B")]
        [("A", doc_number_marker), ("B", doc_required)]) "b.json" [] zeroed).input ∧
    (parse_input_file (table_world [("a.json", "A"), ("b.json", "B")]
        [("A", doc_number_marker), ("B", doc_required)]) "a.json" [] zeroed).input.has_marker
      = 0 := by
  have hw := parse_input_file_ignores_non_text_marker
    (table_world [("a.json", "A"), ("b.json", "B")]
      [("A", doc_number_marker), ("B", doc_required)])
    "a.json" "b.json" "A" "B" doc_number_marker [] zeroed "ctrlA" "treatB" (.int32 7)
    rfl rfl rfl rfl (by decide) (by decide) rfl rfl
  exact ⟨hw.1, hw.2.2.1, hw.2.2.2.2.2.2.2⟩

/-! ## Loading the same file twice -/

/-- On one document `extract_fields` has the same outcome from any two heaps and records. -/
lemma extract_fields_same (bson : bson_t) (ev ev2 : List Event) (h h2 : Heap)
    (input input2 : AnalysisInput) :
    same_outcome (extract_fields bson ev h input) (extract_fields bson ev2 h2 input2) := by
  rcases hc : find_utf8 bson "controlCollection" with _ | c
  · rw [extract_fields_no_control bson ev h input hc,
      extract_fields_no_control bson ev2 h2 input2 hc]
    exact ⟨rfl, fun e => by simp at e⟩
  rcases ht : find_utf8 bson "treatedCollection" with _ | t
  · rw [extract_fields_no_treated bson ev h input c hc ht,
      extract_fields_no_treated bson ev2 h2 input2 c hc ht]
    exact ⟨rfl, fun e => by simp at e⟩
  obtain ⟨r1, -, dc1, dt1, hm1⟩ := extract_fields_found bson ev h input c t hc ht
  obtain ⟨r2, -, dc2, dt2, hm2⟩ := extract_fields_found bson ev2 h2 input2 c t hc ht
  refine ⟨by rw [r1, r2], fun _ => ⟨dc1.trans dc2.symm, dt1.trans dt2.symm, ?_⟩⟩
  rcases hm1 with ⟨m, hfm, hlen, hflag, dm⟩ | ⟨hall, hflag, hnull⟩
  · rcases hm2 with ⟨m2, hfm2, -, hflag2, dm2⟩ | ⟨hall2, -, -⟩
    · rw [hfm] at hfm2
      cases hfm2
      exact ⟨dm.trans dm2.symm, by rw [hflag, hflag2]⟩
    · have hz : strlen m = 0 := hall2 m (by simp [hfm])
      omega
  · rcases hm2 with ⟨m2, hfm2, hlen2, -, -⟩ | ⟨-, hflag2, hnull2⟩
    · have hz : strlen m2 = 0 := hall m2 (by simp [hfm2])
      omega
    · refine ⟨?_, by rw [hflag, hflag2]⟩
      unfold ParseResult.marker
      rw [hnull, hnull2]
      rfl

/-- In one world, two calls of `parse_input_file` on one file have the same outcome from any
two heaps and records. -/
lemma parse_input_file_same (w : World) (filename : String) (h h2 : Heap)
    (input input2 : AnalysisInput) :
    same_outcome (parse_input_file w filename h input)
      (parse_input_file w filename h2 input2) := by
  rcases hopen : w.fopen_read filename with _ | content
  · simp [same_outcome, parse_input_file, hopen]
  rcases hparse : w.bson_new_from_json content with message | bson
  · simp [same_outcome, parse_input_file, hopen, hparse]
  rw [parse_input_file_eq w filename content bson h input hopen hparse,
    parse_input_file_eq w filename content bson h2 input2 hopen hparse]
  exact extract_fields_same bson _ _ h h2 input input2

/-- C7: in an unchanged world, a second call of `parse_input_file` on the same file, given the
heap and the record the first call left, returns the same code as the first, and when that
code is 0 the two records are equal as configurations (the three strings equal as strings, the
flags equal); the same holds for a call given any other heap and record, so a successful
result does not depend on what the record held before. -/
theorem parse_input_file_idempotent (w : World) (filename : String) (h h2 : Heap)
    (input input2 : AnalysisInput) :
    same_outcome (parse_input_file w filename h input)
      (parse_input_file w filename (parse_input_file w filename h input).heap
        (parse_input_file w filename h input).input) ∧
    same_outcome (parse_input_file w filename h input)
      (parse_input_file w filename h2 input2) :=
  ⟨parse_input_file_same w filename h _ input _,
    parse_input_file_same w filename h h2 input input2⟩

/-- C7 at `doc_marker`: the first call returns 0 with the marker `CD45`, and the second call,
on the record the first one filled, returns 0 with an equal configuration. -/
theorem parse_input_file_idempotent_witness :
    (load_sample doc_marker).ret = 0 ∧
    (load_sample doc_marker).marker = some "CD45" ∧
    (parse_input_file (one_file_world doc_marker) "in.json" (load_sample doc_marker).heap
      (load_sample doc_marker).input).ret = 0 ∧
    same_config (load_sample doc_marker)
      (parse_input_file (one_file_world doc_marker) "in.json" (load_sample doc_marker).heap
        (load_sample doc_marker).input) :=
  ⟨by decide, by decide,
    (parse_input_file_idempotent (one_file_world doc_marker) "in.json" [] [] zeroed zeroed).1.1,
    (parse_input_file_idempotent (one_file_world doc_marker) "in.json" [] [] zeroed zeroed).1.2
      (by decide)⟩

/-! ## The program: claims -/

/-- A call of `parse_input_file` that does not return 0 has opened the file for reading and
written one message to the standard error stream, and nothing else. -/
lemma parse_input_file_failure_events (w : World) (filename : String) (h : Heap)
    (input : AnalysisInput) (hret : (parse_input_file w filename h input).ret ≠ 0) :
    ∃ message,
      (parse_input_file w filename h input).events = [.open_read filename, .stderr message] := by
  rcases hopen : w.fopen_read filename with _ | content
  · simp [parse_input_file, hopen]
  rcases hparse : w.bson_new_from_json content with message | bson
  · simp [parse_input_file, hopen, hparse]
  rw [parse_input_file_eq w filename content bson h input hopen hparse] at hret ⊢
  rcases hc : find_utf8 bson "controlCollection" with _ | c
  · rw [extract_fields_no_control bson _ h input hc]
    exact ⟨_, rfl⟩
  rcases ht : find_utf8 bson "treatedCollection" with _ | t
  · rw [extract_fields_no_treated bson _ h input c hc ht]
    exact ⟨_, rfl⟩
  exact absurd (extract_fields_found bson _ h input c t hc ht).1 hret

/-- After a call of `parse_input_file` that returns 0 the two required strings are on the heap,
and either the flag is 1 and the marker is on the heap, or the flag is 0. -/
lemma parse_input_file_success_strings (w : World) (filename : String) (h : Heap)
    (input : AnalysisInput) (hret : (parse_input_file w filename h input).ret = 0) :
    ∃ c t, (parse_input_file w filename h input).control = some c ∧
      (parse_input_file w filename h input).treated = some t ∧
      (((parse_input_file w filename h input).input.has_marker = 1 ∧
          ∃ m, (parse_input_file w filename h input).marker = some m) ∨
        (parse_input_file w filename h input).input.has_marker = 0) := by
  obtain ⟨content, bson, c, t, hopen, hparse, hc, ht⟩ :=
    parse_input_file_ret_zero w filename h input hret
  rw [parse_input_file_eq w filename content bson h input hopen hparse]
  obtain ⟨-, -, dc, dt, hmark⟩ :=
    extract_fields_found bson [.open_read filename] h input c t hc ht
  refine ⟨_, _, dc, dt, ?_⟩
  rcases hmark with ⟨m, -, -, hflag, dm⟩ | ⟨-, hflag, -⟩
  · exact Or.inl ⟨hflag, _, dm⟩
  · exact Or.inr hflag

/-- With an input path, `main` stops with status 1 after a loader call that did not return 0,
having done nothing itself. -/
lemma main_of_failure (w : World) (argv : List String) (hargc : 2 ≤ argv.length)
    (hret : (main_load w argv).ret ≠ 0) :
    main w argv =
      { status := 1, events := (main_load w argv).events, output := none
        heap := (main_load w argv).heap } := by
  have hnot : ¬ argv.length < 2 := by omega
  unfold main_load at hret ⊢
  unfold main
  rw [if_neg hnot]
  simp only []
  rw [if_pos hret]

/-- With an input path, the document `main` builds after a loader call that returned 0. -/
lemma main_output_of_success (w : World) (argv : List String) (hargc : 2 ≤ argv.length)
    (hret : (main_load w argv).ret = 0) :
    (main w argv).output = some
      (if (main_load w argv).input.has_marker ≠ 0 then
        BSON_APPEND_UTF8 (BSON_APPEND_UTF8 (BSON_APPEND_UTF8
          (BSON_APPEND_UTF8 [] "status" (some "success"))
          "controlCollection" (main_load w argv).control)
          "treatedCollection" (main_load w argv).treated)
          "markerName" (main_load w argv).marker
      else
        BSON_APPEND_UTF8 (BSON_APPEND_UTF8
          (BSON_APPEND_UTF8 [] "status" (some "success"))
          "controlCollection" (main_load w argv).control)
          "treatedCollection" (main_load w argv).treated) := by
  have hnot : ¬ argv.length < 2 := by omega
  have hret2 : ¬ (parse_input_file w (argv.getD 1 "") [] zeroed).ret ≠ 0 := fun e => e hret
  unfold main_load ParseResult.control ParseResult.treated ParseResult.marker
  unfold main
  rw [if_neg hnot]
  simp only []
  rw [if_neg hret2]

/-- C8: (1) with no input path (`argc < 2`) `main` returns 1 and all it does is print the usage
line on the standard error stream: no file is opened, so the loader is not called; (2) when
there is an input path and `parse_input_file` returns non-zero, `main` returns 1, does nothing
beyond what the loader did, builds no output document and neither opens nor writes an output
file. -/
theorem main_exit_status (w : World) (argv : List String) :
    (argv.length < 2 →
      (main w argv).status = 1 ∧
      (main w argv).events =
        [.stderr ("Usage: " ++ argv.head?.getD "(null)" ++
          " <input_json_file> [output_json_file]\n")] ∧
      (main w argv).output = none) ∧
    (2 ≤ argv.length → (main_load w argv).ret ≠ 0 →
      (main w argv).status = 1 ∧
      (main w argv).events = (main_load w argv).events ∧
      (main w argv).output = none ∧
      ∀ e ∈ (main w argv).events,
        (∀ path, e ≠ .open_write path) ∧ (∀ path text, e ≠ .write path text)) := by
  constructor
  · intro hargc
    simp [main, hargc]
  · intro hargc hret
    obtain ⟨message, hmsg⟩ := parse_input_file_failure_events w _ [] zeroed hret
    rw [main_of_failure w argv hargc hret]
    refine ⟨rfl, rfl, rfl, ?_⟩
    show ∀ e ∈ (main_load w argv).events, _
    unfold main_load
    rw [hmsg]
    intro e he
    simp only [List.mem_cons, List.mem_singleton, List.not_mem_nil, or_false] at he
    rcases he with rfl | rfl <;> exact ⟨fun _ => by simp, fun _ _ => by simp⟩

/-- C8 at the argument vector `["prog"]`, and at `["prog", "in.json"]` in a world where
`in.json` holds a document without `controlCollection`. -/
theorem main_exit_status_witness :
    ((main (one_file_world doc_no_control) ["prog"]).status = 1 ∧
      (main (one_file_world doc_no_control) ["prog"]).events =
        [.stderr "Usage: prog <input_json_file> [output_json_file]\n"]) ∧
    ((main (one_file_world doc_no_control) ["prog", "in.json"]).status = 1 ∧
      (main (one_file_world doc_no_control) ["prog", "in.json"]).events =
        [.open_read "in.json",
          .stderr "Error: Missing or invalid 'controlCollection' field\n"]) := by
  have h1 := (main_exit_status (one_file_world doc_no_control) ["prog"]).1 (by decide)
  have h2 := (main_exit_status (one_file_world doc_no_control) ["prog", "in.json"]).2
    (by decide) (by decide)
  exact ⟨⟨h1.1, by decide⟩, h2.1, by decide⟩

/-- C9: when there is an input path and `parse_input_file` returns 0, the document `main`
builds is, in this order, `status` = `"success"`, `controlCollection` = the loaded
`control_collection`, `treatedCollection` = the loaded `treated_collection`, followed by
`markerName` = the loaded `marker_name` when `has_marker` is set, and by nothing when it is
not. -/
theorem main_output_document (w : World) (argv : List String) (hargc : 2 ≤ argv.length)
    (hret : (main_load w argv).ret = 0) :
    ∃ control treated,
      (main_load w argv).control = some control ∧
      (main_load w argv).treated = some treated ∧
      ((main_load w argv).input.has_marker ≠ 0 →
        ∃ marker, (main_load w argv).marker = some marker ∧
          (main w argv).output = some
            [("status", .utf8 "success"), ("controlCollection", .utf8 control),
             ("treatedCollection", .utf8 treated), ("markerName", .utf8 marker)]) ∧
      ((main_load w argv).input.has_marker = 0 →
        (main w argv).output = some
          [("status", .utf8 "success"), ("controlCollection", .utf8 control),
           ("treatedCollection", .utf8 treated)]) := by
  obtain ⟨c, t, dc, dt, hmark⟩ := parse_input_file_success_strings w _ [] zeroed hret
  have hout := main_output_of_success w argv hargc hret
  refine ⟨c, t, dc, dt, ?_, ?_⟩
  · intro hflag
    rcases hmark with ⟨-, m, dm⟩ | h0
    · refine ⟨m, dm, ?_⟩
      rw [hout, if_pos hflag]
      have dc2 : (main_load w argv).control = some c := dc
      have dt2 : (main_load w argv).treated = some t := dt
      have dm2 : (main_load w argv).marker = some m := dm
      rw [dc2, dt2, dm2]
      rfl
    · exact absurd h0 hflag
  · intro hflag
    have hflag2 : ¬ (main_load w argv).input.has_marker ≠ 0 := fun e => e hflag
    have dc2 : (main_load w argv).control = some c := dc
    have dt2 : (main_load w argv).treated = some t := dt
    rw [hout, if_neg hflag2, dc2, dt2]
    rfl

/-- C9 at `doc_marker` and the argument vector `["prog", "in.json"]`: the flag is set and the
document is `status`, `controlCollection`, `treatedCollection`, `markerName`. -/
theorem main_output_document_witness :
    (main_load (one_file_world doc_marker) ["prog", "in.json"]).input.has_marker ≠ 0 ∧
    (main (one_file_world doc_marker) ["prog", "in.json"]).output = some
      [("status", .utf8 "success"), ("controlCollection", .utf8 "ctrlA"),
       ("treatedCollection", .utf8 "treatB"), ("markerName", .utf8 "CD45")] := by
  obtain ⟨control, treated, dc, dt, hm, -⟩ :=
    main_output_document (one_file_world doc_marker) ["prog", "in.json"] (by decide) (by decide)
  obtain ⟨marker, dm, hout⟩ := hm (by decide)
  have ec : some "ctrlA" = some control := dc
  have et : some "treatB" = some treated := dt
  have em : some "CD45" = some marker := dm
  cases ec
  cases et
  cases em
  exact ⟨by decide, hout⟩

end KhaiCompare
